import Mathlib

/-!
# Verification of the signctrl failover controller core

Shallow embedding of the Go sources of `dauTT/signctrl`:

* `types/signctrled.go` — the rank/promotion state machine (`BaseSignCtrled`
  with `UnlockCounter`, `Missed`, `Reset`, `promote`);
* `privval/sc_file.go` — the controller loop `run()` of `SCFilePV`, modelled
  as a step function on an explicit loop state driven by the events of the
  `select` statement;
* `config/config.go` — `Base.validate` and its helper validators.

Go `uint` fields are modelled as `Nat` together with explicit wrap-around
`% 2^64` at the two places the source mutates them (`missedInARow++`,
`rank--`); Go `int` fields are modelled as `Int`.  Log statements are
modelled as explicit lists of `LogEvent` values so that claims about
logging (idempotence of `Reset`) can be stated.
-/

namespace Signctrl

/-- Word size of Go's `uint` on a 64-bit platform: all `uint` fields of
`BaseSignCtrled` take values in `[0, uintWrap)` and mutate modulo it. -/
def uintWrap : Nat := 2 ^ 64

/-- The three error values declared at the top of `types/signctrled.go`:
`ErrThresholdExceeded`, `ErrMustShutdown` and `ErrCounterLocked`. -/
inductive Err where
  | thresholdExceeded
  | mustShutdown
  | counterLocked
deriving DecidableEq, Repr

/-- Log events emitted by the rank state machine, one constructor per
`Logger` call site in `types/signctrled.go` (payloads are the formatted
values). -/
inductive LogEvent where
  /-- `UnlockCounter`: "Found first commitsig from validator …". -/
  | unlockedCounter
  /-- `Missed`: "Missed a block (m/t)". -/
  | missedBlock (m t : Nat)
  /-- `Missed`: "Missed too many blocks in a row (m/t)". -/
  | missedTooMany (m t : Nat)
  /-- `Reset`: "Reset counter for missed blocks in a row". -/
  | resetCounter
  /-- `promote`: "Promote validator (r -> r+1)" (the source formats
  `rank` and `rank+1`). -/
  | promoted (r r' : Nat)
deriving DecidableEq, Repr

/-- The mutable fields of `BaseSignCtrled` (`types/signctrled.go`); the
`Logger` and the `impl` back-pointer carry no state relevant to the
embedding.  All four numeric fields are Go `uint`s. -/
structure BaseSignCtrled where
  counterLocked : Bool
  missedInARow : Nat
  threshold : Nat
  rank : Nat
deriving DecidableEq, Repr

namespace BaseSignCtrled

/-- `NewBaseSignCtrled(logger, threshold, rank, impl)`: sets
`counterLocked = true` and copies `threshold` and `rank` unchecked;
`missedInARow` is left at Go's zero value `0`. -/
def NewBaseSignCtrled (threshold rank : Nat) : BaseSignCtrled :=
  { counterLocked := true
    missedInARow := 0
    threshold := threshold
    rank := rank }

/-- `UnlockCounter()`: on the first call flips `counterLocked` and logs;
afterwards a no-op. -/
def UnlockCounter (s : BaseSignCtrled) : BaseSignCtrled × List LogEvent :=
  if s.counterLocked then
    ({ s with counterLocked := false }, [LogEvent.unlockedCounter])
  else
    (s, [])

/-- `Reset()`: sets `missedInARow` to `0` and logs, but only if it is
positive; otherwise a silent no-op. -/
def Reset (s : BaseSignCtrled) : BaseSignCtrled × List LogEvent :=
  if s.missedInARow > 0 then
    ({ s with missedInARow := 0 }, [LogEvent.resetCounter])
  else
    (s, [])

/-- `promote()`: at rank 1 fails with `ErrMustShutdown`; otherwise logs,
decrements `rank` (Go `uint` decrement, wrapping at `0`), calls `Reset`,
and succeeds. -/
def promote (s : BaseSignCtrled) :
    Option Err × BaseSignCtrled × List LogEvent :=
  if s.rank = 1 then
    (some Err.mustShutdown, s, [])
  else
    let log := LogEvent.promoted s.rank ((s.rank + 1) % uintWrap)
    let s1 : BaseSignCtrled := { s with rank := (s.rank + uintWrap - 1) % uintWrap }
    let (s2, l2) := Reset s1
    (none, s2, log :: l2)

/-- `Missed()`: fails with `ErrCounterLocked` while locked; otherwise
increments `missedInARow` (Go `uint` increment) and, when the counter
reaches `threshold`, calls `Reset` then `promote`, propagating a
`promote` error and otherwise failing with `ErrThresholdExceeded`;
below the threshold it succeeds. -/
def Missed (s : BaseSignCtrled) :
    Option Err × BaseSignCtrled × List LogEvent :=
  if s.counterLocked then
    (some Err.counterLocked, s, [])
  else
    let log1 := LogEvent.missedBlock s.missedInARow s.threshold
    let s1 : BaseSignCtrled := { s with missedInARow := (s.missedInARow + 1) % uintWrap }
    if s1.missedInARow = s1.threshold then
      let log2 := LogEvent.missedTooMany s1.missedInARow s1.threshold
      let (s2, l2) := Reset s1
      match promote s2 with
      | (some e, s3, l3) => (some e, s3, log1 :: log2 :: (l2 ++ l3))
      | (none, s3, l3) => (some Err.thresholdExceeded, s3, log1 :: log2 :: (l2 ++ l3))
    else
      (none, s1, [log1])

/-- The state reached after a `Missed` call (discarding result and logs). -/
def missedSt (s : BaseSignCtrled) : BaseSignCtrled := (Missed s).2.1

/-- The error returned by a `Missed` call. -/
def missedErr (s : BaseSignCtrled) : Option Err := (Missed s).1

/-- The three operations an external caller can invoke on the state
machine, as named by the `SignCtrled` interface plus `UnlockCounter`. -/
inductive Op where
  | unlock
  | missed
  | reset
deriving DecidableEq, Repr

/-- Apply one external operation, keeping only the state. -/
def applyOp (s : BaseSignCtrled) : Op → BaseSignCtrled
  | Op.unlock => (UnlockCounter s).1
  | Op.missed => (Missed s).2.1
  | Op.reset => (Reset s).1

/-- Run a sequence of external operations from a starting state. -/
def runOps (s : BaseSignCtrled) : List Op → BaseSignCtrled
  | [] => s
  | op :: ops => runOps (applyOp s op) ops

/-- The state after `n` consecutive `Missed` calls. -/
def missedIter (s : BaseSignCtrled) : Nat → BaseSignCtrled
  | 0 => s
  | n + 1 => missedSt (missedIter s n)

/-- The end-to-end scenario's start state: a fresh `BaseSignCtrled` with
`threshold = 3` and `rank = 3`, unlocked. -/
def scenarioStart : BaseSignCtrled :=
  (UnlockCounter (NewBaseSignCtrled 3 3)).1

/-- A state constructed with `rank = 0` (unchecked by
`NewBaseSignCtrled`) and then unlocked. -/
def rankZeroStart : BaseSignCtrled :=
  (UnlockCounter (NewBaseSignCtrled 2 0)).1

/-- The representation invariant of reachable states: the rank is
positive and the counter is strictly below the threshold, all fields
within `uint` range. -/
def Inv (s : BaseSignCtrled) : Prop :=
  1 ≤ s.rank ∧ s.rank < uintWrap ∧
    s.missedInARow < s.threshold ∧ s.threshold < uintWrap

instance (s : BaseSignCtrled) : Decidable (Inv s) := by
  unfold Inv; infer_instance

end BaseSignCtrled

/-! ## Protocol dispatcher (`HandleRequest`)

`privval/sc_file.go` calls `HandleRequest(ctx, &msg, pv)` but the file
defining `HandleRequest` is not among the sources; it is modelled from the
specification below. -/

/-- The operation tags a protocol message can carry (spec §3:
"public-key request, vote-signing request, proposal-signing request,
liveness ping"). -/
inductive PMsg where
  | pubKeyRequest
  | signVoteRequest
  | signProposalRequest
  | pingRequest
deriving DecidableEq, Repr

/-- The possible outbound responses (spec §3: a genuine signed artifact,
a declination/error artifact, a public key, or a pong). -/
inductive PResp where
  | pubKeyResponse
  | signedVote
  | signedProposal
  | declinedVote
  | declinedProposal
  | pongResponse
deriving DecidableEq, Repr

/-- A response that carries a genuine signature. -/
def PResp.isGenuineSignature : PResp → Bool
  | PResp.signedVote => true
  | PResp.signedProposal => true
  | _ => false

/-- A declination response: fulfills a signing request's transport
contract without a real signature. -/
def PResp.isDeclination : PResp → Bool
  | PResp.declinedVote => true
  | PResp.declinedProposal => true
  | _ => false

/-- Modelled from the spec: `HandleRequest` (the ProtocolDispatcher body,
whose defining file is not among the sources — only its caller in
`privval/sc_file.go` is).  Spec §4.3: a signing request (vote or
proposal) at rank 1 produces a genuine signature via the delegated
signing capability and calls `Reset()`; at any other rank it produces a
declination response without touching signing key material; a public-key
or liveness-ping request is answered directly without consulting rank.
Returns the response, the rank state after the call, and whether the
signing delegate was invoked. -/
def HandleRequest (s : BaseSignCtrled) (m : PMsg) :
    PResp × BaseSignCtrled × Bool :=
  match m with
  | PMsg.pubKeyRequest => (PResp.pubKeyResponse, s, false)
  | PMsg.pingRequest => (PResp.pongResponse, s, false)
  | PMsg.signVoteRequest =>
      if s.rank = 1 then (PResp.signedVote, (BaseSignCtrled.Reset s).1, true)
      else (PResp.declinedVote, s, false)
  | PMsg.signProposalRequest =>
      if s.rank = 1 then (PResp.signedProposal, (BaseSignCtrled.Reset s).1, true)
      else (PResp.declinedProposal, s, false)

/-! ## The controller loop `run()` of `privval/sc_file.go`

The loop is a `select` over three alternatives — the quit channel, the
liveness timer channel, and (default) a blocking read from the secret
connection.  One iteration is modelled as a step function over an
explicit loop state; the environment supplies which alternative fired
and the outcomes of the fallible calls inside it. -/

/-- Whether the `run()` goroutine is still looping or has returned. -/
inductive Phase where
  | serving
  | terminated
deriving DecidableEq, Repr

/-- The observable state of one `run()` loop: its phase, a generation
number identifying the current `pv.SecretConn` (bumped by each
successful redial), and whether the liveness timer is armed (armed by
`time.NewTimer` at entry and by `timeout.Reset` after a successful
read; disarmed when the timer fires). -/
structure RunState where
  phase : Phase
  connGen : Nat
  timerArmed : Bool
deriving DecidableEq, Repr

/-- Side effects one loop iteration can perform, in program order. -/
inductive Action where
  /-- `pv.SecretConn.Close()` on the connection of generation `g`. -/
  | closeConn (g : Nat)
  /-- `pv.Stop()`. -/
  | stopService
  /-- `cancel()` on the request context. -/
  | cancelCtx
  /-- `w.WriteMsg(resp)` of the composed response. -/
  | writeResp
deriving DecidableEq, Repr

/-- Outcome of the default branch's `r.ReadMsg(&msg)` plus the
subsequent `HandleRequest`: either the read failed (EOF or decode
error — the loop just continues), or a message was handled, with
`mustShutdown` recording whether `HandleRequest` returned
`types.ErrMustShutdown`. -/
inductive ReadRes where
  | fail
  | ok (mustShutdown : Bool)
deriving DecidableEq, Repr

/-- Which `select` alternative fired, with the outcomes of the fallible
calls inside the timeout branch (`connection.LoadConnKey`,
`connection.RetrySecretDialTCP`). -/
inductive Event where
  | quit
  | timeout (keyOk dialOk : Bool)
  | read (r : ReadRes)
deriving DecidableEq, Repr

/-- One iteration of the `for { select { ... } }` loop of `run()`
(`privval/sc_file.go`), returning the successor state and the actions
performed, in program order. -/
def runStep (s : RunState) (e : Event) : RunState × List Action :=
  if s.phase = Phase.terminated then (s, [])
  else
    match e with
    | Event.quit =>
        ({ s with phase := Phase.terminated }, [Action.cancelCtx])
    | Event.timeout keyOk dialOk =>
        let s0 : RunState := { s with timerArmed := false }
        if keyOk = false then
          ({ s0 with phase := Phase.terminated },
            [Action.closeConn s.connGen, Action.cancelCtx, Action.stopService])
        else if dialOk = false then
          ({ s0 with phase := Phase.terminated },
            [Action.closeConn s.connGen, Action.cancelCtx])
        else
          ({ s0 with connGen := s.connGen + 1 }, [Action.closeConn s.connGen])
    | Event.read ReadRes.fail => (s, [])
    | Event.read (ReadRes.ok ms) =>
        let s1 : RunState := { s with timerArmed := true }
        if ms then
          ({ s1 with phase := Phase.terminated },
            [Action.cancelCtx, Action.writeResp, Action.cancelCtx,
              Action.stopService, Action.closeConn s.connGen])
        else
          (s1, [Action.cancelCtx, Action.writeResp])

/-! ## Configuration validation (`config/config.go`)

`Base.validate` accumulates error text into a string `errs` and returns
an error exactly when `errs` is nonempty.  The regular-expression and
`net` standard-library helpers it relies on are embedded below at the
level of character lists. -/

namespace Config

/-- `types.LogLevels`: the admissible log levels, per the comment on
`Base.LogLevel` in `config/config.go` ("Can be DEBUG, INFO, WARN or
ERR"). -/
def LogLevels : List String := ["DEBUG", "INFO", "WARN", "ERR"]

/-- Whether `needle` occurs as a contiguous substring of `hay`. -/
def containsSub (needle : List Char) : List Char → Bool
  | [] => needle.isEmpty
  | c :: rest => needle.isPrefixOf (c :: rest) || containsSub needle rest

/-- `regexp.MatchString(logLevelsToRegExp(&types.LogLevels), b.LogLevel)`:
an unanchored match of the alternation `DEBUG|INFO|WARN|ERR` succeeds
exactly when the subject contains one of the alternatives as a
substring. -/
def logLevelMatch (lvl : String) : Bool :=
  LogLevels.any (fun p => containsSub p.toList lvl.toList)

/-- Leftmost match of `(tcp|unix)://` in `addr`
(`regexp.FindString`); returns `""` when there is no match.  At each
position the alternation tries `tcp://` first, then `unix://`. -/
def findProtocolAux : List Char → String
  | [] => ""
  | c :: rest =>
      if "tcp://".toList.isPrefixOf (c :: rest) then "tcp://"
      else if "unix://".toList.isPrefixOf (c :: rest) then "unix://"
      else findProtocolAux rest

/-- `regexp.MustCompile("(tcp|unix)://").FindString(addr)`. -/
def findProtocol (addr : String) : String :=
  findProtocolAux addr.toList

/-- `strings.TrimPrefix(s, pre)`. -/
def goTrimPrefix (s pre : String) : String :=
  if pre.toList.isPrefixOf s.toList then
    String.mk (s.toList.drop pre.toList.length)
  else s

/-- `strings.HasSuffix(s, suf)`. -/
def goHasSuffix (s suf : String) : Bool :=
  suf.toList.isSuffixOf s.toList

/-- Index of the last occurrence of `c` in `s` (the `last` helper of
`net.SplitHostPort`). -/
def lastIdx (s : List Char) (c : Char) : Option Nat :=
  (s.reverse.findIdx? (· = c)).map (fun j => s.length - 1 - j)

/-- Index of the first occurrence of `c` in `s`. -/
def firstIdx (s : List Char) (c : Char) : Option Nat :=
  s.findIdx? (· = c)

/-- `net.SplitHostPort(hostport)`: returns `some (host, port)` on
success and `none` on any of its errors (missing port, missing or
unexpected brackets, too many colons).  The port starts after the last
colon; a bracketed host `[h]:port` requires the first `]` immediately
before that colon. -/
def SplitHostPort (hostport : List Char) : Option (List Char × List Char) :=
  match lastIdx hostport ':' with
  | none => none
  | some i =>
      if hostport.head? = some '[' then
        match firstIdx hostport ']' with
        | none => none
        | some e =>
            if e + 1 = hostport.length then none
            else if e + 1 = i then
              let host := (hostport.drop 1).take (e - 1)
              if (hostport.drop 1).contains '[' then none
              else if (hostport.drop (e + 1)).contains ']' then none
              else some (host, hostport.drop (i + 1))
            else none
      else
        let host := hostport.take i
        if host.contains ':' then none
        else if hostport.contains '[' then none
        else if hostport.contains ']' then none
        else some (host, hostport.drop (i + 1))

/-- Decimal digit test. -/
def isDigit (c : Char) : Bool := '0' ≤ c ∧ c ≤ '9'

/-- The `big` constant of `net`'s `dtoi`/`xtoi` (`0xFFFFFF`). -/
def big : Nat := 0xFFFFFF

/-- `net.dtoi(s)`: reads a decimal prefix, returning the value, the
number of characters consumed and whether the read succeeded (at least
one digit, value below `big`). -/
def dtoiAux : List Char → Nat → Nat → Nat × Nat × Bool
  | [], n, i => (n, i, decide (i ≠ 0))
  | c :: rest, n, i =>
      if isDigit c then
        let n' := n * 10 + (c.toNat - '0'.toNat)
        if n' ≥ big then (big, i, false)
        else dtoiAux rest n' (i + 1)
      else (n, i, decide (i ≠ 0))

/-- `net.dtoi(s)`. -/
def dtoi (s : List Char) : Nat × Nat × Bool := dtoiAux s 0 0

/-- One dotted-decimal field of `net.parseIPv4`: value of the decimal
prefix if it reads, is at most `0xFF`, and has no leading zero. -/
def parseV4Field (s : List Char) : Option (Nat × List Char) :=
  match dtoi s with
  | (n, c, ok) =>
      if ok = false ∨ n > 0xFF then none
      else if c > 1 ∧ s.head? = some '0' then none
      else some (n, s.drop c)

/-- The four-field loop of `net.parseIPv4`: `k` fields remain; fields
after the first must be preceded by `'.'`; the input must be exhausted
at the end. -/
def parseIPv4Aux : Nat → List Char → List Nat → Option (List Nat)
  | 0, s, acc => if s.isEmpty then some acc.reverse else none
  | k + 1, s, acc =>
      if s.isEmpty then none
      else
        let s' : Option (List Char) :=
          if acc.isEmpty then some s
          else if s.head? = some '.' then some (s.drop 1) else none
        match s' with
        | none => none
        | some s1 =>
            match parseV4Field s1 with
            | none => none
            | some (n, rest) => parseIPv4Aux k rest (n :: acc)

/-- `net.parseIPv4(s)`: the four bytes of a dotted-decimal IPv4
address, or `none`. -/
def parseIPv4 (s : List Char) : Option (List Nat) :=
  parseIPv4Aux 4 s []

/-- `net.xtoi(s)`: reads a hexadecimal prefix, returning the value, the
number of characters consumed and whether the read succeeded. -/
def xtoiAux : List Char → Nat → Nat → Nat × Nat × Bool
  | [], n, i => (n, i, decide (i ≠ 0))
  | c :: rest, n, i =>
      let d? : Option Nat :=
        if isDigit c then some (c.toNat - '0'.toNat)
        else if 'a' ≤ c ∧ c ≤ 'f' then some (c.toNat - 'a'.toNat + 10)
        else if 'A' ≤ c ∧ c ≤ 'F' then some (c.toNat - 'A'.toNat + 10)
        else none
      match d? with
      | none => (n, i, decide (i ≠ 0))
      | some d =>
          let n' := n * 16 + d
          if n' ≥ big then (0, i, false)
          else xtoiAux rest n' (i + 1)

/-- `net.xtoi(s)`. -/
def xtoi (s : List Char) : Nat × Nat × Bool := xtoiAux s 0 0

/-- Loop exit of `net.parseIPv6`: the input must be exhausted; fewer
than 16 bytes require an ellipsis (`::`), whose position receives the
missing zero bytes; exactly 16 bytes forbid an ellipsis. -/
def parseIPv6Finish (s : List Char) (i : Nat) (ellipsis : Option Nat)
    (acc : List Nat) : Option (List Nat) :=
  if s.isEmpty = false then none
  else if i < 16 then
    match ellipsis with
    | none => none
    | some e => some (acc.take e ++ List.replicate (16 - i) 0 ++ acc.drop e)
  else
    match ellipsis with
    | some _ => none
    | none => some acc

/-- The group loop of `net.parseIPv6`: reads up to 16 bytes of
colon-separated 16-bit hexadecimal groups, at most one `::` ellipsis,
and an optional trailing dotted-decimal IPv4 tail.  `fuel` bounds the
number of iterations (each consumes two byte slots). -/
def parseIPv6Loop : Nat → List Char → Nat → Option Nat → List Nat →
    Option (List Nat)
  | 0, s, i, el, acc => parseIPv6Finish s i el acc
  | fuel + 1, s, i, el, acc =>
      if 16 ≤ i then parseIPv6Finish s i el acc
      else
        match xtoi s with
        | (n, c, ok) =>
            if ok = false ∨ n > 0xFFFF then none
            else if c < s.length ∧ (s.drop c).head? = some '.' then
              if el.isNone ∧ i ≠ 12 then none
              else if i + 4 > 16 then none
              else
                match parseIPv4 s with
                | none => none
                | some b4 => parseIPv6Finish [] (i + 4) el (acc ++ b4)
            else
              let acc1 := acc ++ [n / 256, n % 256]
              let i1 := i + 2
              let s1 := s.drop c
              if s1.isEmpty then parseIPv6Finish s1 i1 el acc1
              else if s1.head? ≠ some ':' ∨ s1.length = 1 then none
              else
                let s2 := s1.drop 1
                if s2.head? = some ':' then
                  if el.isSome then none
                  else
                    let s3 := s2.drop 1
                    if s3.isEmpty then parseIPv6Finish s3 i1 (some i1) acc1
                    else parseIPv6Loop fuel s3 i1 (some i1) acc1
                else parseIPv6Loop fuel s2 i1 el acc1

/-- `net.parseIPv6(s)`: the 16 bytes of a colon-separated IPv6
address, or `none`. -/
def parseIPv6 (s : List Char) : Option (List Nat) :=
  if s.length ≥ 2 ∧ s.take 2 = [':', ':'] then
    let s' := s.drop 2
    if s'.isEmpty then some (List.replicate 16 0)
    else parseIPv6Loop 8 s' 0 (some 0) []
  else parseIPv6Loop 8 s 0 none []

/-- Scan of `net.ParseIP`: the first `'.'` routes to `parseIPv4`, the
first `':'` to `parseIPv6` (with any `%zone` suffix stripped first, as
in `parseIPv6Zone`); otherwise the input is no IP address at all. -/
def parseIPScan : List Char → List Char → Option (List Nat)
  | _, [] => none
  | orig, c :: rest =>
      if c = '.' then parseIPv4 orig
      else if c = ':' then parseIPv6 (orig.takeWhile (· ≠ '%'))
      else parseIPScan orig rest

/-- `net.ParseIP(s)`: `some bytes` when `s` parses as an IPv4 or IPv6
address, `none` otherwise (the Go function's `nil`). -/
def ParseIP (s : List Char) : Option (List Nat) :=
  parseIPScan s s

/-- `validateAddress(addr, addrName)` from `config/config.go`: `none`
on success, `some message` on failure.  No protocol is an error; a
`tcp://` address must split into host:port with the host a parseable
IP; a `unix://` address must end in `.sock`; the (unreachable) default
of the `switch` succeeds. -/
def validateAddress (addr : String) (addrName : String) : Option String :=
  let protocol := findProtocol addr
  if protocol = "" then some (addrName ++ " is missing the protocol")
  else if protocol = "tcp://" then
    let hp := goTrimPrefix addr protocol
    match SplitHostPort hp.toList with
    | none => some (addrName ++ " is not in the host:port format")
    | some (host, _) =>
        match ParseIP host with
        | none => some (addrName ++ " is not a valid IPv4 address")
        | some _ => none
  else if protocol = "unix://" then
    if goHasSuffix addr ".sock" = false then
      some (addrName ++ " is not a unix domain socket address")
    else none
  else none

/-- Leftmost match of `[1-9][0-9]+` in `s` (`regexp.FindString`):
a nonzero digit followed by at least one further digit, extended
greedily; `[]` when there is no match. -/
def findTimeNum : List Char → List Char
  | [] => []
  | c :: rest =>
      let nextDigit : Bool :=
        match rest.head? with
        | some d => isDigit d
        | none => false
      if (decide ('1' ≤ c) && decide (c ≤ '9')) && nextDigit then
        c :: rest.takeWhile isDigit
      else findTimeNum rest

/-- Word character for the regex word boundary `\b`. -/
def isWordChar (c : Char) : Bool :=
  ('a' ≤ c ∧ c ≤ 'z') ∨ ('A' ≤ c ∧ c ≤ 'Z') ∨ isDigit c ∨ c = '_'

/-- Leftmost match of `s\b|m\b|h\b` in `s`: one of the unit letters
followed by a word boundary (end of input or a non-word character);
`[]` when there is no match. -/
def findTimeUnit : List Char → List Char
  | [] => []
  | c :: rest =>
      let boundary : Bool :=
        match rest.head? with
        | some d => !isWordChar d
        | none => true
      if (decide (c = 's') || decide (c = 'm') || decide (c = 'h')) && boundary then
        [c]
      else findTimeUnit rest

/-- A guarded `errs += chunk` statement. -/
def appendIf (errs : String) (c : Bool) (chunk : String) : String :=
  if c then errs ++ chunk else errs

/-- The `errs += fmt.Sprintf("\t%v\n", err.Error())` accumulation of an
address-validation outcome. -/
def appendAddrErr (errs : String) (o : Option String) : String :=
  match o with
  | some e => errs ++ ("\t" ++ e ++ "\n")
  | none => errs

/-- `validate_time(errs, congfi_attr, config_value)` from
`config/config.go`: appends an error line when the value is empty, is
missing the time number, or is missing the unit of time; returns the
accumulated error string. -/
def validate_time (errs : String) (congfi_attr : String)
    (config_value : String) : String :=
  if config_value = "" then
    errs ++ ("\t" ++ congfi_attr ++ " must not be empty\n")
  else
    let time := findTimeNum config_value.toList
    let errs1 :=
      appendIf errs time.isEmpty ("\t" ++ congfi_attr ++ " is missing the time\n")
    let timeUnit := findTimeUnit config_value.toList
    appendIf errs1 timeUnit.isEmpty
      ("\t" ++ congfi_attr ++ " is missing the unit of time\n")

/-- The `[base]` section of the configuration (`Base` in
`config/config.go`); the numeric fields are Go `int`s. -/
structure Base where
  LogLevel : String
  SetSize : Int
  Threshold : Int
  StartRank : Int
  ValidatorListenAddress : String
  ValidatorListenAddressRPC : String
  RetryDialAfter : String
  BootStrapTime : String
deriving DecidableEq, Repr

/-- `Base.validate()` from `config/config.go`: accumulates one error
line per failed check into `errs` and returns `some errs` when any
check failed, `none` otherwise. -/
def Base.validate (b : Base) : Option String :=
  let errs : String := ""
  let errs := appendIf errs (!logLevelMatch b.LogLevel)
    "\tlog_level must be one of the following: [DEBUG INFO WARN ERR]\n"
  let errs := appendIf errs (decide (b.SetSize < 2))
    "\tset_size must be 2 or higher\n"
  let errs := appendIf errs (decide (b.Threshold < 2))
    "\tthreshold must be 2 or higher\n"
  let errs := appendIf errs (decide (b.StartRank < 1))
    "\tstart_rank must be 1 or higher\n"
  let errs :=
    appendAddrErr errs (validateAddress b.ValidatorListenAddress "validator_laddr")
  let errs :=
    appendAddrErr errs
      (validateAddress b.ValidatorListenAddressRPC "validator_laddr_rpc")
  let errs := validate_time errs "retry_dial_after" b.RetryDialAfter
  let errs := validate_time errs "boostrap_time" b.BootStrapTime
  if errs ≠ "" then some errs else none

end Config

/-! ## Characterization lemmas for the rank state machine -/

namespace BaseSignCtrled

theorem Missed_locked (s : BaseSignCtrled) (h : s.counterLocked = true) :
    Missed s = (some Err.counterLocked, s, []) := by
  simp [Missed, h]

/-- One `Missed` call on an unlocked state whose counter does not wrap:
the error returned and the successor state, by case on whether the
incremented counter reaches the threshold and on the rank. -/
theorem Missed_spec (s : BaseSignCtrled) (hU : s.counterLocked = false)
    (hm : s.missedInARow + 1 < uintWrap) :
    missedErr s =
      (if s.missedInARow + 1 = s.threshold then
        (if s.rank = 1 then some Err.mustShutdown else some Err.thresholdExceeded)
      else none) ∧
    missedSt s =
      (if s.missedInARow + 1 = s.threshold then
        (if s.rank = 1 then { s with missedInARow := 0 }
          else { s with missedInARow := 0,
                        rank := (s.rank + uintWrap - 1) % uintWrap })
      else { s with missedInARow := s.missedInARow + 1 }) := by
  have hmod : (s.missedInARow + 1) % uintWrap = s.missedInARow + 1 :=
    Nat.mod_eq_of_lt hm
  unfold missedErr missedSt Missed
  simp only [hU, Bool.false_eq_true, if_false, hmod]
  by_cases hc : s.missedInARow + 1 = s.threshold
  · have ht0 : 0 < s.threshold := hc ▸ Nat.succ_pos _
    by_cases hr : s.rank = 1
    · simp [hc, Reset, promote, hr, ht0]
    · simp [hc, Reset, promote, hr, ht0]
  · simp [hc]

/-- Go `uint` decrement of a positive in-range value is plain
subtraction. -/
theorem decWrap_eq {r : Nat} (h1 : 1 ≤ r) (h2 : r < uintWrap) :
    (r + uintWrap - 1) % uintWrap = r - 1 := by
  have hsplit : r + uintWrap - 1 = uintWrap + (r - 1) := by omega
  rw [hsplit, Nat.add_mod_left]
  exact Nat.mod_eq_of_lt (by omega)

/-- C2: while `counterLocked` is true, every `Missed()` call in any
sequence of such calls returns the `CounterLocked` error and leaves
`missedInARow` and `rank` unchanged. -/
theorem missed_while_locked (s : BaseSignCtrled) (h : s.counterLocked = true)
    (n : Nat) :
    missedErr (missedIter s n) = some Err.counterLocked ∧
    (missedIter s n).missedInARow = s.missedInARow ∧
    (missedIter s n).rank = s.rank := by
  have hfix : ∀ m, missedIter s m = s := by
    intro m
    induction m with
    | zero => rfl
    | succ k ih => simp [missedIter, ih, missedSt, Missed_locked s h]
  simp [hfix, missedErr, Missed_locked s h]

/-- Witness for C2 at a concrete locked state and a four-call
sequence. -/
theorem missed_while_locked_witness :
    missedErr (missedIter ⟨true, 1, 3, 2⟩ 4) = some Err.counterLocked ∧
    (missedIter (⟨true, 1, 3, 2⟩ : BaseSignCtrled) 4).missedInARow = 1 ∧
    (missedIter (⟨true, 1, 3, 2⟩ : BaseSignCtrled) 4).rank = 2 :=
  missed_while_locked ⟨true, 1, 3, 2⟩ rfl 4

/-- C3: on an unlocked in-range state, a `Missed()` call that does not
reach the threshold increments `missedInARow` by exactly 1, keeps the
rank, and returns success; the call that reaches the threshold resets
the counter to 0, and when `rank > 1` it decreases the rank by exactly
1 and returns the `ThresholdExceeded` error. -/
theorem missed_unlocked_behavior (s : BaseSignCtrled)
    (hU : s.counterLocked = false) (hmt : s.missedInARow < s.threshold)
    (htW : s.threshold < uintWrap) (hrW : s.rank < uintWrap) :
    (s.missedInARow + 1 ≠ s.threshold →
      missedErr s = none ∧
      (missedSt s).missedInARow = s.missedInARow + 1 ∧
      (missedSt s).rank = s.rank) ∧
    (s.missedInARow + 1 = s.threshold →
      (missedSt s).missedInARow = 0 ∧
      (1 < s.rank →
        missedErr s = some Err.thresholdExceeded ∧
        (missedSt s).rank = s.rank - 1 ∧
        (missedSt s).rank + 1 = s.rank)) := by
  have hm : s.missedInARow + 1 < uintWrap := by omega
  obtain ⟨he, hs⟩ := Missed_spec s hU hm
  constructor
  · intro hne
    rw [he, hs]
    simp [hne]
  · intro hc
    rw [hs]
    by_cases hr : s.rank = 1
    · simp [hc, hr]
    · refine ⟨by simp [hc, hr], ?_⟩
      intro hgt
      have hd : (s.rank + uintWrap - 1) % uintWrap = s.rank - 1 :=
        decWrap_eq (by omega) hrW
      rw [he]
      simp [hc, hr, hd]
      omega

/-- Witness for C3 at a concrete unlocked state (`threshold = 3`,
`rank = 2`, counter 0). -/
theorem missed_unlocked_behavior_witness :
    ((⟨false, 0, 3, 2⟩ : BaseSignCtrled).missedInARow + 1 ≠
        (⟨false, 0, 3, 2⟩ : BaseSignCtrled).threshold →
      missedErr ⟨false, 0, 3, 2⟩ = none ∧
      (missedSt ⟨false, 0, 3, 2⟩).missedInARow = 1 ∧
      (missedSt ⟨false, 0, 3, 2⟩).rank = 2) ∧
    ((⟨false, 0, 3, 2⟩ : BaseSignCtrled).missedInARow + 1 =
        (⟨false, 0, 3, 2⟩ : BaseSignCtrled).threshold →
      (missedSt ⟨false, 0, 3, 2⟩).missedInARow = 0 ∧
      (1 < (⟨false, 0, 3, 2⟩ : BaseSignCtrled).rank →
        missedErr ⟨false, 0, 3, 2⟩ = some Err.thresholdExceeded ∧
        (missedSt ⟨false, 0, 3, 2⟩).rank = 1 ∧
        (missedSt ⟨false, 0, 3, 2⟩).rank + 1 = 2)) :=
  missed_unlocked_behavior ⟨false, 0, 3, 2⟩ rfl (by decide) (by decide)
    (by decide)

/-- C4: the threshold-crossing `Missed()` call at rank 1 returns the
`MustShutdown` error with the rank unchanged, and the controller loop,
on a handled message whose handler returned `MustShutdown`, terminates:
it stops the service and closes the active connection. -/
theorem missed_rank1_mustshutdown (s : BaseSignCtrled) (r : RunState)
    (hU : s.counterLocked = false) (hc : s.missedInARow + 1 = s.threshold)
    (htW : s.threshold < uintWrap) (hr1 : s.rank = 1)
    (hph : r.phase = Phase.serving) :
    missedErr s = some Err.mustShutdown ∧
    (missedSt s).rank = s.rank ∧
    (runStep r (Event.read (ReadRes.ok true))).1.phase = Phase.terminated ∧
    Action.stopService ∈ (runStep r (Event.read (ReadRes.ok true))).2 ∧
    Action.closeConn r.connGen ∈ (runStep r (Event.read (ReadRes.ok true))).2 := by
  have hm : s.missedInARow + 1 < uintWrap := by omega
  obtain ⟨he, hs⟩ := Missed_spec s hU hm
  have hterm : r.phase ≠ Phase.terminated := by
    rw [hph]; intro hcontra; cases hcontra
  refine ⟨by rw [he]; simp [hc, hr1], by rw [hs]; simp [hc, hr1], ?_, ?_, ?_⟩
  · simp [runStep, hterm]
  · simp [runStep, hterm]
  · simp [runStep, hterm]

/-- Witness for C4 at a concrete rank-1 state one miss short of the
threshold and a serving loop state. -/
theorem missed_rank1_mustshutdown_witness :
    missedErr ⟨false, 2, 3, 1⟩ = some Err.mustShutdown ∧
    (missedSt ⟨false, 2, 3, 1⟩).rank = 1 ∧
    (runStep ⟨Phase.serving, 5, true⟩ (Event.read (ReadRes.ok true))).1.phase =
      Phase.terminated ∧
    Action.stopService ∈
      (runStep ⟨Phase.serving, 5, true⟩ (Event.read (ReadRes.ok true))).2 ∧
    Action.closeConn 5 ∈
      (runStep ⟨Phase.serving, 5, true⟩ (Event.read (ReadRes.ok true))).2 :=
  missed_rank1_mustshutdown ⟨false, 2, 3, 1⟩ ⟨Phase.serving, 5, true⟩ rfl
    (by decide) (by decide) rfl rfl

theorem Inv_applyOp (s : BaseSignCtrled) (h : Inv s) (op : Op) :
    Inv (applyOp s op) := by
  obtain ⟨h1, h2, h3, h4⟩ := h
  cases op with
  | unlock =>
      unfold applyOp UnlockCounter Inv
      by_cases hl : s.counterLocked = true <;>
        simp [hl] <;> refine ⟨?_, ?_, ?_, ?_⟩ <;> first | omega | (simp; omega) | simp
  | reset =>
      unfold applyOp Reset Inv
      by_cases hz : s.missedInARow > 0 <;>
        simp [hz] <;> refine ⟨?_, ?_, ?_, ?_⟩ <;> first | omega | (simp; omega) | simp
  | missed =>
      unfold applyOp
      by_cases hl : s.counterLocked = true
      · rw [show (Missed s).2.1 = s by rw [Missed_locked s hl]]
        exact ⟨h1, h2, h3, h4⟩
      · have hU : s.counterLocked = false := by
          cases hcl : s.counterLocked
          · rfl
          · exact absurd hcl hl
        have hm : s.missedInARow + 1 < uintWrap := by omega
        have hs := (Missed_spec s hU hm).2
        rw [show (Missed s).2.1 = missedSt s from rfl, hs]
        unfold Inv
        by_cases hc : s.missedInARow + 1 = s.threshold
        · by_cases hr : s.rank = 1
          · simp only [hc, if_true, hr, if_pos]
            refine ⟨?_, ?_, ?_, ?_⟩ <;> first | omega | (simp; omega) | simp
          · have hd : (s.rank + uintWrap - 1) % uintWrap = s.rank - 1 :=
              decWrap_eq h1 h2
            simp only [hc, if_true, hr, if_false, hd]
            refine ⟨?_, ?_, ?_, ?_⟩ <;> first | omega | (simp; omega) | simp
        · simp only [hc, if_false]
          refine ⟨?_, ?_, ?_, ?_⟩ <;> first | omega | (simp; omega) | simp

theorem Inv_runOps (s : BaseSignCtrled) (h : Inv s) (ops : List Op) :
    Inv (runOps s ops) := by
  induction ops generalizing s with
  | nil => exact h
  | cons op ops ih => exact ih (applyOp s op) (Inv_applyOp s h op)

theorem applyOp_rank_le (s : BaseSignCtrled) (h : Inv s) (op : Op) :
    (applyOp s op).rank ≤ s.rank := by
  obtain ⟨h1, h2, h3, h4⟩ := h
  cases op with
  | unlock =>
      unfold applyOp UnlockCounter
      by_cases hl : s.counterLocked = true <;> simp [hl]
  | reset =>
      unfold applyOp Reset
      by_cases hz : s.missedInARow > 0 <;> simp [hz]
  | missed =>
      unfold applyOp
      by_cases hl : s.counterLocked = true
      · rw [show (Missed s).2.1 = s by rw [Missed_locked s hl]]
      · have hU : s.counterLocked = false := by
          cases hcl : s.counterLocked
          · rfl
          · exact absurd hcl hl
        have hm : s.missedInARow + 1 < uintWrap := by omega
        have hs := (Missed_spec s hU hm).2
        rw [show (Missed s).2.1 = missedSt s from rfl, hs]
        by_cases hc : s.missedInARow + 1 = s.threshold
        · by_cases hr : s.rank = 1
          · simp [hc, hr]
          · have hd : (s.rank + uintWrap - 1) % uintWrap = s.rank - 1 :=
              decWrap_eq h1 h2
            simp [hc, hr, hd]
        · simp [hc]

/-- C5: from an initial state built with `threshold ≥ 2` and
`rank ≥ 1` (both in `uint` range) and the counter locked, every state
reachable by `UnlockCounter`/`Missed`/`Reset` calls keeps `rank ≥ 1`
and `missedInARow ≤ threshold`, and no single further call ever
increases the rank. -/
theorem reachable_invariants (t r : Nat) (op : Op) (ops : List Op)
    (ht : 2 ≤ t) (htW : t < uintWrap) (hr : 1 ≤ r) (hrW : r < uintWrap) :
    1 ≤ (runOps (NewBaseSignCtrled t r) ops).rank ∧
    (runOps (NewBaseSignCtrled t r) ops).missedInARow ≤
      (runOps (NewBaseSignCtrled t r) ops).threshold ∧
    (applyOp (runOps (NewBaseSignCtrled t r) ops) op).rank ≤
      (runOps (NewBaseSignCtrled t r) ops).rank := by
  have hinit : Inv (NewBaseSignCtrled t r) := by
    refine ⟨hr, hrW, ?_, htW⟩
    show (0 : Nat) < t
    omega
  have hreach := Inv_runOps (NewBaseSignCtrled t r) hinit ops
  obtain ⟨i1, i2, i3, i4⟩ := hreach
  exact ⟨i1, by omega, applyOp_rank_le _ ⟨i1, i2, i3, i4⟩ op⟩

/-- Witness for C5: `threshold = 2`, `rank = 1`, the two-call sequence
unlock-then-miss, followed by one more `Missed` call. -/
theorem reachable_invariants_witness :
    1 ≤ (runOps (NewBaseSignCtrled 2 1) [Op.unlock, Op.missed]).rank ∧
    (runOps (NewBaseSignCtrled 2 1) [Op.unlock, Op.missed]).missedInARow ≤
      (runOps (NewBaseSignCtrled 2 1) [Op.unlock, Op.missed]).threshold ∧
    (applyOp (runOps (NewBaseSignCtrled 2 1) [Op.unlock, Op.missed])
        Op.missed).rank ≤
      (runOps (NewBaseSignCtrled 2 1) [Op.unlock, Op.missed]).rank :=
  reachable_invariants 2 1 Op.missed [Op.unlock, Op.missed] (by decide)
    (by decide) (by decide) (by decide)

/-- C6: end-to-end scenario at `threshold = 3`, start `rank = 3`,
unlocked: after three `Missed` calls the state is rank 2 with counter
0; after three more it is rank 1 with counter 0; of the further three
calls the first two succeed and the third returns `MustShutdown`, with
the rank staying 1 throughout. -/
theorem scenario_threshold3 :
    (missedIter scenarioStart 3).rank = 2 ∧
    (missedIter scenarioStart 3).missedInARow = 0 ∧
    (missedIter scenarioStart 6).rank = 1 ∧
    (missedIter scenarioStart 6).missedInARow = 0 ∧
    missedErr (missedIter scenarioStart 6) = none ∧
    missedErr (missedIter scenarioStart 7) = none ∧
    missedErr (missedIter scenarioStart 8) = some Err.mustShutdown ∧
    (missedIter scenarioStart 7).rank = 1 ∧
    (missedIter scenarioStart 8).rank = 1 ∧
    (missedIter scenarioStart 9).rank = 1 := by
  decide

/-- C8: `Reset()` is idempotent: after one call the counter is 0, and
a second call leaves the state unchanged and emits no log event. -/
theorem reset_idempotent (s : BaseSignCtrled) :
    (Reset s).1.missedInARow = 0 ∧
    Reset (Reset s).1 = ((Reset s).1, []) := by
  unfold Reset
  by_cases hz : s.missedInARow > 0 <;> simp [hz] <;> omega

/-- C10: `NewBaseSignCtrled` stores `rank = 0` unchecked; from the
unlocked rank-0 state with `threshold = 2`, the first `Missed` call
succeeds and the second (threshold-crossing) one makes `promote`
decrement the `uint` rank from 0, wrapping it to `2^64 - 1`, with
`promote` itself succeeding — so the rank strictly increases across
that call, and the `rank ≥ 1` / rank-never-increases invariants fail
without the `rank ≥ 1` precondition. -/
theorem rank_zero_wraps :
    (NewBaseSignCtrled 2 0).rank = 0 ∧
    (NewBaseSignCtrled 2 0).counterLocked = true ∧
    missedErr rankZeroStart = none ∧
    (missedIter rankZeroStart 1).rank = 0 ∧
    (promote ⟨false, 0, 2, 0⟩).1 = none ∧
    (promote ⟨false, 0, 2, 0⟩).2.1.rank = 2 ^ 64 - 1 ∧
    missedErr (missedIter rankZeroStart 1) = some Err.thresholdExceeded ∧
    (missedIter rankZeroStart 2).rank = 2 ^ 64 - 1 ∧
    (missedIter rankZeroStart 1).rank < (missedIter rankZeroStart 2).rank := by
  refine ⟨rfl, rfl, ?_, ?_, ?_, ?_, ?_, ?_, ?_⟩ <;> decide

end BaseSignCtrled

/-! ## Dispatcher and controller-loop claims -/

/-- C1: for a vote- or proposal-signing request, the dispatcher
produces a genuine signature exactly when the rank at dispatch is 1 —
the signing delegate is invoked exactly then, and then `Reset()` is
called; at any other rank the response is a declination, the delegate
is never invoked and the rank state is untouched. -/
theorem genuine_signature_only_at_rank1 (s : BaseSignCtrled) (m : PMsg)
    (hm : m = PMsg.signVoteRequest ∨ m = PMsg.signProposalRequest) :
    ((HandleRequest s m).1.isGenuineSignature = true ↔ s.rank = 1) ∧
    ((HandleRequest s m).2.2 = true ↔ s.rank = 1) ∧
    (s.rank ≠ 1 →
      (HandleRequest s m).1.isDeclination = true ∧
      (HandleRequest s m).2.2 = false ∧
      (HandleRequest s m).2.1 = s) ∧
    (s.rank = 1 →
      (HandleRequest s m).1.isGenuineSignature = true ∧
      (HandleRequest s m).2.1 = (BaseSignCtrled.Reset s).1) := by
  rcases hm with hv | hp <;> subst_vars <;>
    by_cases hr : s.rank = 1 <;>
      simp [HandleRequest, hr, PResp.isGenuineSignature, PResp.isDeclination]

/-- Witness for C1: a vote-signing request at a concrete rank-2
state. -/
theorem genuine_signature_only_at_rank1_witness :
    ((HandleRequest ⟨false, 1, 3, 2⟩ PMsg.signVoteRequest).1.isGenuineSignature
        = true ↔ (⟨false, 1, 3, 2⟩ : BaseSignCtrled).rank = 1) ∧
    ((HandleRequest ⟨false, 1, 3, 2⟩ PMsg.signVoteRequest).2.2 = true ↔
      (⟨false, 1, 3, 2⟩ : BaseSignCtrled).rank = 1) ∧
    ((⟨false, 1, 3, 2⟩ : BaseSignCtrled).rank ≠ 1 →
      (HandleRequest ⟨false, 1, 3, 2⟩ PMsg.signVoteRequest).1.isDeclination
          = true ∧
      (HandleRequest ⟨false, 1, 3, 2⟩ PMsg.signVoteRequest).2.2 = false ∧
      (HandleRequest ⟨false, 1, 3, 2⟩ PMsg.signVoteRequest).2.1 =
        ⟨false, 1, 3, 2⟩) ∧
    ((⟨false, 1, 3, 2⟩ : BaseSignCtrled).rank = 1 →
      (HandleRequest ⟨false, 1, 3, 2⟩ PMsg.signVoteRequest).1.isGenuineSignature
          = true ∧
      (HandleRequest ⟨false, 1, 3, 2⟩ PMsg.signVoteRequest).2.1 =
        (BaseSignCtrled.Reset ⟨false, 1, 3, 2⟩).1) :=
  genuine_signature_only_at_rank1 ⟨false, 1, 3, 2⟩ PMsg.signVoteRequest
    (Or.inl rfl)

/-- Counterexample to C7 as stated: at the concrete serving state with
connection generation 0 and the timer armed, a liveness timeout with a
successful redial does close the stale connection exactly once and
return to serving — but the liveness timer is NOT freshly reset
(`timerArmed` is `false` afterwards), so the claimed conjunction
fails. -/
theorem timeout_reset_claim_false :
    ¬((runStep ⟨Phase.serving, 0, true⟩ (Event.timeout true true)).1.phase =
          Phase.serving ∧
      (runStep ⟨Phase.serving, 0, true⟩ (Event.timeout true true)).2 =
          [Action.closeConn 0] ∧
      (runStep ⟨Phase.serving, 0, true⟩ (Event.timeout true true)).1.timerArmed =
          true) := by
  decide

/-- C7 amended: a liveness timeout while serving closes the stale
connection exactly once and, on a successful redial, returns to
serving with a fresh connection — but with the liveness timer left
unarmed; the timer is re-armed only by the next successfully read
message. -/
theorem timeout_reconnect (s : RunState) (b : Bool)
    (hph : s.phase = Phase.serving) :
    (runStep s (Event.timeout true true)).2 = [Action.closeConn s.connGen] ∧
    (runStep s (Event.timeout true true)).1.phase = Phase.serving ∧
    (runStep s (Event.timeout true true)).1.connGen = s.connGen + 1 ∧
    (runStep s (Event.timeout true true)).1.timerArmed = false ∧
    (runStep (runStep s (Event.timeout true true)).1
        (Event.read (ReadRes.ok b))).1.timerArmed = true := by
  have hterm : s.phase ≠ Phase.terminated := by
    rw [hph]; intro hcontra; cases hcontra
  cases b <;> simp [runStep, hterm, hph]

/-! ## Configuration-validation claims -/

namespace Config

theorem append_right_ne (s t : String) (ht : t ≠ "") : s ++ t ≠ "" := by
  intro h
  apply ht
  have hd : s.data ++ t.data = [] := by
    have := congrArg String.data h
    rwa [String.data_append] at this
  exact String.ext (List.append_eq_nil.mp hd).2

theorem append_left_ne (s t : String) (hs : s ≠ "") : s ++ t ≠ "" := by
  intro h
  apply hs
  have hd : s.data ++ t.data = [] := by
    have := congrArg String.data h
    rwa [String.data_append] at this
  exact String.ext (List.append_eq_nil.mp hd).1

theorem appendIf_empty {errs chunk : String} {c : Bool} (hch : chunk ≠ "")
    (h : appendIf errs c chunk = "") : errs = "" ∧ c = false := by
  unfold appendIf at h
  cases c with
  | true => exact absurd h (append_right_ne errs chunk hch)
  | false => exact ⟨h, rfl⟩

theorem appendIf_ne {errs : String} (c : Bool) (chunk : String)
    (h : errs ≠ "") : appendIf errs c chunk ≠ "" := by
  unfold appendIf
  cases c with
  | true => exact append_left_ne errs chunk h
  | false => exact h

theorem appendAddrErr_empty {errs : String} {o : Option String}
    (h : appendAddrErr errs o = "") : errs = "" ∧ o = none := by
  cases o with
  | none => exact ⟨h, rfl⟩
  | some e =>
      exfalso
      unfold appendAddrErr at h
      exact append_right_ne errs _ (append_right_ne _ _ (by decide)) h

theorem appendAddrErr_ne {errs : String} (o : Option String)
    (h : errs ≠ "") : appendAddrErr errs o ≠ "" := by
  cases o with
  | none => exact h
  | some e => exact append_left_ne errs _ h

theorem validate_time_empty {errs a v : String}
    (h : validate_time errs a v = "") :
    errs = "" ∧ validate_time "" a v = "" := by
  unfold validate_time at h ⊢
  by_cases hv : v = ""
  · rw [if_pos hv] at h
    exact absurd h (append_right_ne errs _ (append_right_ne _ _ (by decide)))
  · rw [if_neg hv] at h
    rw [if_neg hv]
    obtain ⟨h1, hu⟩ :=
      appendIf_empty (append_right_ne _ _ (by decide)) h
    obtain ⟨h0, hn⟩ :=
      appendIf_empty (append_right_ne _ _ (by decide)) h1
    refine ⟨h0, ?_⟩
    simp only [hn, hu, appendIf, if_false, Bool.false_eq_true]

theorem validate_time_ne {errs : String} (a v : String) (h : errs ≠ "") :
    validate_time errs a v ≠ "" := by
  unfold validate_time
  by_cases hv : v = ""
  · rw [if_pos hv]
    exact append_left_ne errs _ h
  · rw [if_neg hv]
    exact appendIf_ne _ _ (appendIf_ne _ _ h)

/-- C9: `Base.validate` returns an error whenever `Threshold < 2` or
`StartRank < 1`, and it returns `nil` only when every listed constraint
holds: an admissible log level, `SetSize ≥ 2`, `Threshold ≥ 2`,
`StartRank ≥ 1`, both listen addresses valid, and both duration strings
passing the time validation. -/
theorem validate_characterization (b : Base) :
    ((b.Threshold < 2 ∨ b.StartRank < 1) →
      (Base.validate b).isSome = true) ∧
    (Base.validate b = none →
      logLevelMatch b.LogLevel = true ∧
      2 ≤ b.SetSize ∧ 2 ≤ b.Threshold ∧ 1 ≤ b.StartRank ∧
      validateAddress b.ValidatorListenAddress "validator_laddr" = none ∧
      validateAddress b.ValidatorListenAddressRPC "validator_laddr_rpc" = none ∧
      validate_time "" "retry_dial_after" b.RetryDialAfter = "" ∧
      validate_time "" "boostrap_time" b.BootStrapTime = "") := by
  constructor
  · intro hts
    simp only [Base.validate]
    split_ifs with hcond
    · rfl
    · exfalso
      have h8 : validate_time
          (validate_time
            (appendAddrErr
              (appendAddrErr
                (appendIf
                  (appendIf
                    (appendIf
                      (appendIf "" (!logLevelMatch b.LogLevel)
                        "\tlog_level must be one of the following: [DEBUG INFO WARN ERR]\n")
                      (decide (b.SetSize < 2)) "\tset_size must be 2 or higher\n")
                    (decide (b.Threshold < 2)) "\tthreshold must be 2 or higher\n")
                  (decide (b.StartRank < 1)) "\tstart_rank must be 1 or higher\n")
                (validateAddress b.ValidatorListenAddress "validator_laddr"))
              (validateAddress b.ValidatorListenAddressRPC "validator_laddr_rpc"))
            "retry_dial_after" b.RetryDialAfter)
          "boostrap_time" b.BootStrapTime = "" := not_not.mp hcond
      obtain ⟨h7, _⟩ := validate_time_empty h8
      obtain ⟨h6, _⟩ := validate_time_empty h7
      obtain ⟨h5, _⟩ := appendAddrErr_empty h6
      obtain ⟨h4, _⟩ := appendAddrErr_empty h5
      obtain ⟨h3, hc4⟩ := appendIf_empty (by decide) h4
      obtain ⟨h2, hc3⟩ := appendIf_empty (by decide) h3
      rcases hts with hlt | hlt
      · exact absurd hlt (of_decide_eq_false hc3)
      · exact absurd hlt (of_decide_eq_false hc4)
  · intro h
    simp only [Base.validate] at h
    split_ifs at h with hcond
    case _ =>
      have h8 := not_not.mp hcond
      obtain ⟨h7, hboot⟩ := validate_time_empty h8
      obtain ⟨h6, hretry⟩ := validate_time_empty h7
      obtain ⟨h5, ho2⟩ := appendAddrErr_empty h6
      obtain ⟨h4, ho1⟩ := appendAddrErr_empty h5
      obtain ⟨h3, hc4⟩ := appendIf_empty (by decide) h4
      obtain ⟨h2, hc3⟩ := appendIf_empty (by decide) h3
      obtain ⟨h1, hc2⟩ := appendIf_empty (by decide) h2
      obtain ⟨h0, hc1⟩ := appendIf_empty (by decide) h1
      refine ⟨?_, ?_, ?_, ?_, ho1, ho2, hretry, hboot⟩
      · simpa using hc1
      · have := of_decide_eq_false hc2
        omega
      · have := of_decide_eq_false hc3
        omega
      · have := of_decide_eq_false hc4
        omega

/-- Witness for C9: a configuration with `Threshold = 1` is rejected. -/
theorem validate_characterization_witness :
    (Base.validate
      { LogLevel := "INFO", SetSize := 2, Threshold := 1, StartRank := 1,
        ValidatorListenAddress := "tcp://127.0.0.1:3000",
        ValidatorListenAddressRPC := "tcp://127.0.0.1:26657",
        RetryDialAfter := "15s", BootStrapTime := "10m" }).isSome = true :=
  (validate_characterization _).1 (Or.inl (by decide))

end Config

/-- Witness for C7's amended statement at a concrete serving state. -/
theorem timeout_reconnect_witness :
    (runStep ⟨Phase.serving, 7, true⟩ (Event.timeout true true)).2 =
        [Action.closeConn 7] ∧
    (runStep ⟨Phase.serving, 7, true⟩ (Event.timeout true true)).1.phase =
        Phase.serving ∧
    (runStep ⟨Phase.serving, 7, true⟩ (Event.timeout true true)).1.connGen = 8 ∧
    (runStep ⟨Phase.serving, 7, true⟩ (Event.timeout true true)).1.timerArmed =
        false ∧
    (runStep (runStep ⟨Phase.serving, 7, true⟩ (Event.timeout true true)).1
        (Event.read (ReadRes.ok false))).1.timerArmed = true :=
  timeout_reconnect ⟨Phase.serving, 7, true⟩ false rfl

end Signctrl
